import Mathlib

/-!
# Verification of the folder-organizer core

Shallow embedding of the folder organizer (src/src/utils.py, src/src/organizer.py,
src/src/logger.py) and proofs of the specification's claims about it.

Modelling conventions:
* A filesystem path (`pathlib.Path`) is a parent directory (a list of path
  components) together with a final name (a list of characters), since the code
  only ever manipulates the final component and probes/creates siblings.
* The filesystem is a finite state: a list of existing regular files and a list
  of existing directories.
* Fallible filesystem primitives (`mkdir`, `shutil.move`, `Path.stat`,
  `Path.unlink`) are parameterised by a failure oracle, because the Python code
  treats any of them as able to raise; Python exceptions are `Except.error`
  values, and `try/except Exception` blocks are the corresponding `match`
  handlers.
* The logger (src/src/logger.py) appends structured events; it is modelled as a
  pure event list in the organizer state (FileOperationLogger owns no business
  logic).
-/

namespace FolderOrganizer

/-- A Python exception, as raised by the filesystem primitives or by
`get_unique_filename`'s ceiling check (`ValueError`). -/
inductive PyExn where
  | valueError
  | osError
  | fileNotFound
  deriving DecidableEq, Repr

/-- A `pathlib.Path`: the parent directory's components plus the final name.
The name is kept as a character list because `get_unique_filename` splices
stem/suffix at character level. -/
structure PyPath where
  dir : List String
  name : List Char
  deriving DecidableEq, Repr

/-- Index of the last `'.'` in a name (`str.rfind('.')`), `none` if absent. -/
def lastDotIdx : List Char → Option Nat
  | [] => none
  | c :: cs =>
    match lastDotIdx cs with
    | some i => some (i + 1)
    | none => if c = '.' then some 0 else none

/-- `pathlib.PurePath`'s stem/suffix split of a final name: the suffix is
`name[i:]` for `i = name.rfind('.')` when `0 < i < len(name) - 1`, else empty;
the stem is the rest. -/
def pySplitExt (name : List Char) : List Char × List Char :=
  match lastDotIdx name with
  | some i =>
    if 0 < i ∧ i < name.length - 1 then (name.take i, name.drop i) else (name, [])
  | none => (name, [])

/-- `Path.stem` of a final name. -/
def pyStem (name : List Char) : List Char := (pySplitExt name).1

/-- `Path.suffix` of a final name. -/
def pySuffix (name : List Char) : List Char := (pySplitExt name).2

/-- The candidate `parent / f"{stem}_{counter}{suffix}"` probed by
`get_unique_filename` at a given counter value. -/
def uniqueCandidate (p : PyPath) (counter : Nat) : PyPath :=
  ⟨p.dir, pyStem p.name ++ ('_' :: Nat.toDigits 10 counter) ++ pySuffix p.name⟩

/-- The `while True` loop of `get_unique_filename` (src/src/utils.py:25-37):
probe the candidate at `counter`; if it is free return it, otherwise increment
and raise `ValueError` once the counter exceeds 9999.  `fuel` makes the
recursion structural; the loop is entered with `counter = 1` and
`fuel = 9999`, so `fuel` never reaches the dead `0` branch before the ceiling
check fires. -/
def uniqueFrom (ex : PyPath → Bool) (p : PyPath) : Nat → Nat → Except PyExn PyPath
  | counter, fuel =>
    let cand := uniqueCandidate p counter
    if ex cand then
      if 9999 < counter + 1 then .error .valueError
      else
        match fuel with
        | 0 => .error .valueError
        | f + 1 => uniqueFrom ex p (counter + 1) f
    else .ok cand

/-- `get_unique_filename` (src/src/utils.py:6-37), with the live filesystem's
existence test abstracted as `ex`: return the path unchanged when it does not
exist, otherwise run the conflict loop from counter 1. -/
def get_unique_filename (ex : PyPath → Bool) (p : PyPath) : Except PyExn PyPath :=
  if ex p then uniqueFrom ex p 1 9999 else .ok p

/-- Lower-casing of a name (`str.lower()` on the extension). -/
def lowerName (s : List Char) : List Char := s.map Char.toLower

/-- `dict.get(key, default=None)` over an association list with string keys
(the category table maps lower-cased extensions, dots included, to category
names). -/
def dictGet (table : List (List Char × String)) (key : List Char) : Option String :=
  (table.find? (fun e => e.1 = key)).map (fun e => e.2)

/-- `get_file_category` (src/src/utils.py:82-94): look the file's lower-cased
extension up in the mapping, falling back to the default category. -/
def get_file_category (table : List (List Char × String)) (default : String)
    (p : PyPath) : String :=
  (dictGet table (lowerName (pySuffix p.name))).getD default

/-- Filesystem state: existing regular files and existing directories
(directories are bare component lists). -/
structure FS where
  files : List PyPath
  dirs : List (List String)
  deriving DecidableEq, Repr

/-- `Path.is_file()`. -/
def FS.isFile (fs : FS) (p : PyPath) : Bool := decide (p ∈ fs.files)

/-- The directory-entry key a file path would occupy as a directory. -/
def PyPath.asDir (p : PyPath) : List String := p.dir ++ [String.mk p.name]

/-- `Path.is_dir()`. -/
def FS.isDir (fs : FS) (p : PyPath) : Bool := decide (p.asDir ∈ fs.dirs)

/-- `Path.exists()`: the path names an existing file or directory. -/
def FS.pathExists (fs : FS) (p : PyPath) : Bool := fs.isFile p || fs.isDir p

/-- Failure oracle for the fallible filesystem primitives: which `mkdir`,
`shutil.move`, `stat` and `unlink` calls raise, and what sizes `stat`
reports. -/
structure FSOracle where
  mkdirFails : List String → Bool
  moveFails : PyPath → PyPath → Bool
  statFails : PyPath → Bool
  statSize : PyPath → Nat
  unlinkFails : PyPath → Bool

/-- The operation counters (`FileOrganizer.stats`, src/src/organizer.py:56-63). -/
structure Stats where
  total : Nat
  moved : Nat
  renamed : Nat
  deleted : Nat
  skipped : Nat
  errors : Nat
  deriving DecidableEq, Repr

/-- The all-zero counters installed by `FileOrganizer.__init__`. -/
def Stats.init : Stats := ⟨0, 0, 0, 0, 0, 0⟩

/-- A structured log event (src/src/logger.py `ActionType` plus the summary
block written by `log_summary`). -/
inductive LogEvent where
  | moved (source destination : PyPath) (category : String)
  | renamed (original new : PyPath) (reason : String)
  | deleted (p : PyPath) (reason : String)
  | skipped (p : PyPath) (reason : String)
  | error (p : PyPath) (e : PyExn)
  | summary (st : Stats)
  deriving DecidableEq, Repr

/-- A file descriptor (`FileInfo`, src/src/organizer.py:21-41). -/
structure FileInfo where
  path : PyPath
  category : String
  size : Nat
  deriving DecidableEq, Repr

/-- `FileInfo.name`: the file's final name component. -/
def FileInfo.name (fi : FileInfo) : List Char := fi.path.name

/-- `FileInfo.extension`: the lower-cased suffix. -/
def FileInfo.extension (fi : FileInfo) : List Char := lowerName (pySuffix fi.path.name)

/-- `OrganizerConfig` (src/src/config.py) together with the compiled-in
category table.  The table (`FILE_FORMAT_FOLDERS`) and default category
(`DEFAULT_CATEGORY`) live in the `file_formats` module, which only the
organizer imports; they are carried here as data so every statement
quantifies over them. -/
structure Config where
  source_dir : List String
  destination_base : List String
  formatTable : List (List Char × String)
  defaultCategory : String

/-- The organizer's mutable world: the filesystem, the counters and the log. -/
structure OrgSt where
  fs : FS
  stats : Stats
  log : List LogEvent
  deriving DecidableEq, Repr

/-- `is_hidden_file` (src/src/utils.py:40-49): name starts with a dot. -/
def is_hidden_file (p : PyPath) : Bool :=
  match p.name with
  | '.' :: _ => true
  | _ => false

/-- The fixed denylist of OS artifact names (src/src/utils.py:61-66). -/
def systemFileNames : List (List Char) :=
  [".DS_Store".data, "Thumbs.db".data, "desktop.ini".data, ".localized".data]

/-- `is_system_file` (src/src/utils.py:52-67). -/
def is_system_file (p : PyPath) : Bool := decide (p.name ∈ systemFileNames)

/-- `should_ignore_file` (src/src/utils.py:70-79). -/
def should_ignore_file (p : PyPath) : Bool := is_hidden_file p || is_system_file p

/-- The filesystem after `dest_dir.mkdir(exist_ok=True)` succeeds. -/
def mkdirFs (fs : FS) (d : List String) : FS :=
  { fs with dirs := if d ∈ fs.dirs then fs.dirs else d :: fs.dirs }

/-- `create_destination_dir` (src/src/utils.py:113-125): make
`base_path / category` (idempotent), which may raise. -/
def create_destination_dir (o : FSOracle) (fs : FS) (base : List String)
    (category : String) : Except PyExn (List String × FS) :=
  let d := base ++ [category]
  if o.mkdirFails d then .error .osError
  else .ok (d, mkdirFs fs d)

/-- `safe_delete_file` (src/src/utils.py:128-143): unlink an existing regular
file, swallowing any exception; report success as a Boolean. -/
def safe_delete_file (o : FSOracle) (fs : FS) (p : PyPath) : Bool × FS :=
  if fs.pathExists p && fs.isFile p then
    if o.unlinkFails p then (false, fs)
    else (true, { fs with files := fs.files.erase p })
  else (false, fs)

/-- The desired destination path `dest_dir / file_info.name`
(src/src/organizer.py:115). -/
def moveDestPath (cfg : Config) (fi : FileInfo) : PyPath :=
  ⟨cfg.destination_base ++ [fi.category], fi.name⟩

/-- The tail of `move_file`'s try block (src/src/organizer.py:124-131):
`shutil.move`, the MOVED log line and the `moved` counter increment, for an
already conflict-resolved destination. -/
def move_file_step (o : FSOracle) (fi : FileInfo) (dest_path : PyPath) (s : OrgSt) :
    Except (PyExn × OrgSt) (PyPath × OrgSt) :=
  if o.moveFails fi.path dest_path then .error (.osError, s)
  else
    .ok (dest_path,
      { s with
        fs := { s.fs with files := dest_path :: s.fs.files.erase fi.path },
        log := s.log ++ [.moved fi.path dest_path fi.category],
        stats := { s.stats with moved := s.stats.moved + 1 } })

/-- The try block of `move_file` (src/src/organizer.py:107-131): create the
category directory, compute the destination, resolve a name conflict (logging
RENAMED and counting `renamed`) and perform the move. -/
def move_file_try (o : FSOracle) (cfg : Config) (fi : FileInfo) (s : OrgSt) :
    Except (PyExn × OrgSt) (PyPath × OrgSt) :=
  match create_destination_dir o s.fs cfg.destination_base fi.category with
  | .error e => .error (e, s)
  | .ok (dest_dir, fs1) =>
    let s1 : OrgSt := { s with fs := fs1 }
    let dest_path : PyPath := ⟨dest_dir, fi.name⟩
    if fs1.pathExists dest_path then
      match get_unique_filename fs1.pathExists dest_path with
      | .error e => .error (e, s1)
      | .ok newPath =>
        move_file_step o fi newPath
          { s1 with
            log := s1.log ++ [.renamed dest_path newPath "name conflict"],
            stats := { s1.stats with renamed := s1.stats.renamed + 1 } }
    else
      move_file_step o fi dest_path s1

/-- `move_file` (src/src/organizer.py:98-136): the try block under the
catch-all handler, which logs ERROR, counts it and returns `(False, None)`. -/
def move_file (o : FSOracle) (cfg : Config) (fi : FileInfo) (s : OrgSt) :
    Except PyExn ((Bool × Option PyPath) × OrgSt) :=
  match move_file_try o cfg fi s with
  | .ok (dest, s') => .ok ((true, some dest), s')
  | .error (e, s') =>
    .ok ((false, none),
      { s' with
        log := s'.log ++ [.error fi.path e],
        stats := { s'.stats with errors := s'.stats.errors + 1 } })

/-- The try block of `delete_file` (src/src/organizer.py:147-154):
`safe_delete_file`, raising `FileNotFoundError` when it reports failure,
then the DELETED log line and the `deleted` counter increment. -/
def delete_file_try (o : FSOracle) (fi : FileInfo) (s : OrgSt) :
    Except (PyExn × OrgSt) OrgSt :=
  match safe_delete_file o s.fs fi.path with
  | (success, fs') =>
    let s1 : OrgSt := { s with fs := fs' }
    if success then
      .ok { s1 with
            log := s1.log ++ [.deleted fi.path "user request"],
            stats := { s1.stats with deleted := s1.stats.deleted + 1 } }
    else .error (.fileNotFound, s1)

/-- `delete_file` (src/src/organizer.py:138-159): the try block under the
catch-all handler. -/
def delete_file (o : FSOracle) (fi : FileInfo) (s : OrgSt) :
    Except PyExn (Bool × OrgSt) :=
  match delete_file_try o fi s with
  | .ok s' => .ok (true, s')
  | .error (e, s') =>
    .ok (false,
      { s' with
        log := s'.log ++ [.error fi.path e],
        stats := { s'.stats with errors := s'.stats.errors + 1 } })

/-- `skip_file` (src/src/organizer.py:161-169): log SKIPPED and count it;
no filesystem effect and nothing can raise. -/
def skip_file (fi : FileInfo) (reason : String) (s : OrgSt) : OrgSt :=
  { s with
    log := s.log ++ [.skipped fi.path reason],
    stats := { s.stats with skipped := s.stats.skipped + 1 } }

/-- The body of `scan_files`'s loop (src/src/organizer.py:73-94) over the
`iterdir()` listing: skip directories and ignorable files; classify (pure) and
`stat` each survivor inside a per-file try whose handler logs ERROR and counts
it, excluding the file from the result. -/
def scan_files_loop (o : FSOracle) (cfg : Config) :
    List PyPath → OrgSt → List FileInfo × OrgSt
  | [], s => ([], s)
  | item :: rest, s =>
    if s.fs.isDir item then scan_files_loop o cfg rest s
    else if should_ignore_file item then scan_files_loop o cfg rest s
    else if o.statFails item then
      scan_files_loop o cfg rest
        { s with
          log := s.log ++ [.error item .osError],
          stats := { s.stats with errors := s.stats.errors + 1 } }
    else
      let fi : FileInfo :=
        ⟨item, get_file_category cfg.formatTable cfg.defaultCategory item,
          o.statSize item⟩
      let r := scan_files_loop o cfg rest s
      (fi :: r.1, r.2)

/-- `scan_files` (src/src/organizer.py:65-96), parameterised by the
`iterdir()` listing of the source directory.  Every per-file failure is caught
inside the loop, so the scan itself always returns normally. -/
def scan_files (o : FSOracle) (cfg : Config) (items : List PyPath) (s : OrgSt) :
    Except PyExn (List FileInfo × OrgSt) :=
  .ok (scan_files_loop o cfg items s)

/-- The `for` loop of `organize_all` (src/src/organizer.py:180-181): move every
scanned file in order; an escaped exception would abort the loop (none can,
see `operations_never_raise`). -/
def organize_all_loop (o : FSOracle) (cfg : Config) :
    List FileInfo → OrgSt → Except PyExn OrgSt
  | [], s => .ok s
  | fi :: rest, s =>
    match move_file o cfg fi s with
    | .ok (_, s') => organize_all_loop o cfg rest s'
    | .error e => .error e

/-- `organize_all` (src/src/organizer.py:171-184): scan, set `total` to the
number of scanned files, move them all, log the summary and return the
counters. -/
def organize_all (o : FSOracle) (cfg : Config) (items : List PyPath) (s : OrgSt) :
    Except PyExn (Stats × OrgSt) :=
  match scan_files o cfg items s with
  | .error e => .error e
  | .ok (files, s1) =>
    match organize_all_loop o cfg files
        { s1 with stats := { s1.stats with total := files.length } } with
    | .error e => .error e
    | .ok s2 => .ok (s2.stats, { s2 with log := s2.log ++ [.summary s2.stats] })

/-- A terminal per-file action chosen by the driver (cli.py's interactive
loop): auto/manual move, delete, or skip. -/
inductive Action where
  | amove
  | adelete
  | askip
  deriving DecidableEq, Repr

/-- Apply one terminal action to one descriptor.  The `.error` fallbacks are
unreachable (`operations_never_raise`); Python would propagate the exception
there. -/
def apply_action (o : FSOracle) (cfg : Config) (a : Action) (fi : FileInfo)
    (s : OrgSt) : OrgSt :=
  match a with
  | .amove =>
    match move_file o cfg fi s with
    | .ok (_, s') => s'
    | .error _ => s
  | .adelete =>
    match delete_file o fi s with
    | .ok (_, s') => s'
    | .error _ => s
  | .askip => skip_file fi "user choice" s

/-- The driver loop: one terminal action per descriptor, in scan order. -/
def run_actions (o : FSOracle) (cfg : Config) (act : FileInfo → Action) :
    List FileInfo → OrgSt → OrgSt
  | [], s => s
  | fi :: rest, s => run_actions o cfg act rest (apply_action o cfg (act fi) fi s)

/-- A whole interactive-style run (cli.py `run_interactive_mode`): scan, set
`total` to the number of scanned descriptors, then give each descriptor
exactly one terminal action. -/
def run_organizer (o : FSOracle) (cfg : Config) (act : FileInfo → Action)
    (items : List PyPath) (s : OrgSt) : OrgSt :=
  match scan_files o cfg items s with
  | .error _ => s
  | .ok (files, s1) =>
    run_actions o cfg act files
      { s1 with stats := { s1.stats with total := files.length } }

/-- Whether every `move_file` call in a sequential pass over the given
descriptors reports success ("no move fails"). -/
def movesSucceed (o : FSOracle) (cfg : Config) : List FileInfo → OrgSt → Bool
  | [], _ => true
  | fi :: rest, s =>
    match move_file o cfg fi s with
    | .ok ((ok, _), s') => ok && movesSucceed o cfg rest s'
    | .error _ => false

/-- Projection of a `move_file` result onto its success flag and the resulting
counters (used to evaluate concrete calls). -/
def moveCallStats (x : Except PyExn ((Bool × Option PyPath) × OrgSt)) :
    Option (Bool × Stats) :=
  match x with
  | .ok ((ok, _), s') => some (ok, s'.stats)
  | .error _ => none

/-- Projection of an `organize_all` result onto the returned statistics. -/
def organizeStats (x : Except PyExn (Stats × OrgSt)) : Option Stats :=
  match x with
  | .ok (st, _) => some st
  | .error _ => none

/-- A store of counter-dictionary objects; a reference is an index. -/
structure StatsHeap where
  cells : List Stats
  deriving DecidableEq, Repr

/-- Dereference a dict reference. -/
def StatsHeap.read (h : StatsHeap) (r : Nat) : Stats := h.cells.getD r Stats.init

/-- Mutate the dict behind a reference in place
(e.g. `d['moved'] = 99` on the returned dict). -/
def StatsHeap.write (h : StatsHeap) (r : Nat) (st : Stats) : StatsHeap :=
  ⟨h.cells.set r st⟩

/-- `get_stats` (src/src/organizer.py:186-192): `return self.stats.copy()` —
allocate a fresh cell holding a copy of the organizer's counters, and return
the new reference. -/
def get_stats (h : StatsHeap) (org : Nat) : Nat × StatsHeap :=
  (h.cells.length, ⟨h.cells ++ [h.read org]⟩)

/-- Unfolding lemma for one iteration of the conflict loop. -/
theorem uniqueFrom_step (ex : PyPath → Bool) (p : PyPath) (c fuel : Nat) :
    uniqueFrom ex p c fuel =
      if ex (uniqueCandidate p c) then
        if 9999 < c + 1 then .error .valueError
        else
          match fuel with
          | 0 => .error .valueError
          | f + 1 => uniqueFrom ex p (c + 1) f
      else .ok (uniqueCandidate p c) := by
  rw [uniqueFrom.eq_def]

/-- If the candidate at `N` is the first free one at or above the current
counter, and `N` is within the ceiling, the loop returns it. -/
theorem uniqueFrom_finds (ex : PyPath → Bool) (p : PyPath) :
    ∀ fuel c N, c ≤ N → N ≤ 9999 → c + fuel = 10000 →
      ex (uniqueCandidate p N) = false →
      (∀ m, c ≤ m → m < N → ex (uniqueCandidate p m) = true) →
      uniqueFrom ex p c fuel = .ok (uniqueCandidate p N) := by
  intro fuel
  induction fuel with
  | zero =>
    intro c N hcN hN hfuel _ _
    omega
  | succ f ih =>
    intro c N hcN hN hfuel hfree hmin
    rw [uniqueFrom_step]
    rcases Nat.eq_or_lt_of_le hcN with hEq | hLt
    · subst hEq
      simp [hfree]
    · have hc : ex (uniqueCandidate p c) = true := hmin c le_rfl hLt
      have hceil : ¬ 9999 < c + 1 := by omega
      simp only [hc, if_true, hceil, if_false]
      exact ih (c + 1) N (by omega) hN (by omega) hfree
        (fun m hm hmN => hmin m (by omega) hmN)

/-- The loop returns `ValueError` exactly when every candidate from the current
counter up to the ceiling 9999 is taken. -/
theorem uniqueFrom_exhausted (ex : PyPath → Bool) (p : PyPath) :
    ∀ fuel c, 1 ≤ c → c ≤ 9999 → c + fuel = 10000 →
      (uniqueFrom ex p c fuel = .error .valueError ↔
        ∀ n, c ≤ n → n ≤ 9999 → ex (uniqueCandidate p n) = true) := by
  intro fuel
  induction fuel with
  | zero => intro c h1 h2 hfuel; omega
  | succ f ih =>
    intro c h1 h2 hfuel
    rw [uniqueFrom_step]
    by_cases hc : ex (uniqueCandidate p c) = true
    · simp only [hc, if_true]
      by_cases hceil : 9999 < c + 1
      · have hc9999 : c = 9999 := by omega
        subst hc9999
        simp only [hceil, if_true]
        constructor
        · intro _ n hn hn'
          have : n = 9999 := by omega
          subst this
          exact hc
        · intro _; trivial
      · simp only [hceil, if_false]
        rcases Nat.eq_zero_or_pos f with hf | hf
        · omega
        · have := ih (c + 1) (by omega) (by omega) (by omega)
          rw [this]
          constructor
          · intro hall n hn hn'
            rcases Nat.eq_or_lt_of_le hn with hEq | hLt
            · subst hEq; exact hc
            · exact hall n (by omega) hn'
          · intro hall n hn hn'
            exact hall n (by omega) hn'
    · simp only [hc, if_false]
      constructor
      · intro h; cases h
      · intro hall
        exact absurd (hall c le_rfl h2) hc

/-- C3: when the desired path is free `get_unique_filename` returns it
unchanged; when it is taken, it returns the candidate `stem_N<suffix>` in the
same directory for the smallest unused `N ≥ 1` (within the ceiling), and that
candidate does not exist. -/
theorem resolve_unique_correct (ex : PyPath → Bool) (p : PyPath) (N : Nat)
    (hN1 : 1 ≤ N) (hN2 : N ≤ 9999)
    (hfree : ex (uniqueCandidate p N) = false)
    (hmin : ∀ m, 1 ≤ m → m < N → ex (uniqueCandidate p m) = true) :
    (ex p = false → get_unique_filename ex p = .ok p) ∧
    (ex p = true →
      get_unique_filename ex p = .ok (uniqueCandidate p N) ∧
      (uniqueCandidate p N).dir = p.dir ∧
      ex (uniqueCandidate p N) = false) := by
  constructor
  · intro hnp
    simp [get_unique_filename, hnp]
  · intro hp
    refine ⟨?_, rfl, hfree⟩
    simp only [get_unique_filename, hp, if_true]
    exact uniqueFrom_finds ex p 9999 1 N hN1 hN2 (by omega) hfree hmin

/-- C3 witness: with only `a.txt` existing, resolving `a.txt` yields
`a_1.txt`, and resolving the fresh path `b.txt` yields `b.txt`. -/
theorem resolve_unique_correct_witness :
    let p : PyPath := ⟨["d"], "a.txt".data⟩
    let ex : PyPath → Bool := fun q => q = p
    (ex p = false → get_unique_filename ex p = .ok p) ∧
    (ex p = true →
      get_unique_filename ex p = .ok (uniqueCandidate p 1) ∧
      (uniqueCandidate p 1).dir = p.dir ∧
      ex (uniqueCandidate p 1) = false) := by
  intro p ex
  exact resolve_unique_correct ex p 1 (by decide) (by decide)
    (by decide) (fun m h1 h2 => absurd (Nat.lt_of_lt_of_le h2 h1) (by omega))

/-- C6: `get_unique_filename` fails with the `ValueError` ceiling error, rather
than looping or returning a path, exactly when the desired path exists and
every candidate `stem_N<suffix>` for `N` from 1 to 9999 also exists. -/
theorem resolve_unique_ceiling (ex : PyPath → Bool) (p : PyPath) :
    get_unique_filename ex p = .error .valueError ↔
      (ex p = true ∧ ∀ n, 1 ≤ n → n ≤ 9999 → ex (uniqueCandidate p n) = true) := by
  by_cases hp : ex p = true
  · simp only [get_unique_filename, hp, if_true]
    rw [uniqueFrom_exhausted ex p 9999 1 le_rfl (by omega) (by omega)]
    tauto
  · simp only [get_unique_filename, hp]
    simp only [Bool.not_eq_true] at hp
    simp [hp]

/-- C6 witness: instantiating the ceiling characterisation at a filesystem
where every path exists, and at one where no path exists. -/
theorem resolve_unique_ceiling_witness :
    let p : PyPath := ⟨["d"], "a.txt".data⟩
    (get_unique_filename (fun _ => true) p = .error .valueError ↔
      ((true : Bool) = true ∧ ∀ n, 1 ≤ n → n ≤ 9999 → (true : Bool) = true)) ∧
    get_unique_filename (fun _ => false) p = .ok p := by
  constructor
  · exact resolve_unique_ceiling (fun _ => true) _
  · rfl

/-- C8: `get_file_category` equals the table lookup of the lower-cased
extension with the default as fallback; it is therefore case-insensitive
(`A.PDF` and `a.pdf` classify alike for every table) and returns the default
for every extension absent from the table. -/
theorem classify_correct (table : List (List Char × String)) (default : String) :
    (∀ p, get_file_category table default p =
      (dictGet table (lowerName (pySuffix p.name))).getD default) ∧
    (∀ d, get_file_category table default ⟨d, "A.PDF".data⟩ =
      get_file_category table default ⟨d, "a.pdf".data⟩) ∧
    (∀ p, dictGet table (lowerName (pySuffix p.name)) = none →
      get_file_category table default p = default) := by
  refine ⟨fun p => rfl, fun d => ?_, fun p h => ?_⟩
  · have hext : lowerName (pySuffix ("A.PDF".data)) = lowerName (pySuffix ("a.pdf".data)) := by
      decide
    simp only [get_file_category, hext]
  · simp [get_file_category, h]

/-- C8 witness: with the table mapping only `.pdf` to `Documents`,
`A.PDF` classifies like `a.pdf`, and `notes.xyz` falls back to `Others`. -/
theorem classify_correct_witness :
    let table : List (List Char × String) := [(".pdf".data, "Documents")]
    (get_file_category table "Others" ⟨[], "A.PDF".data⟩ =
      get_file_category table "Others" ⟨[], "a.pdf".data⟩) ∧
    get_file_category table "Others" ⟨[], "notes.xyz".data⟩ = "Others" := by
  intro table
  exact ⟨(classify_correct table "Others").2.1 [],
    (classify_correct table "Others").2.2 ⟨[], "notes.xyz".data⟩ (by decide)⟩

/-- `move_file` when `mkdir` raises: ERROR logged, `errors` counted, failure
returned, nothing else touched. -/
theorem move_file_eq_of_mkdir_fails (o : FSOracle) (cfg : Config) (fi : FileInfo)
    (s : OrgSt)
    (hmk : o.mkdirFails (cfg.destination_base ++ [fi.category]) = true) :
    move_file o cfg fi s = .ok ((false, none),
      { s with
        log := s.log ++ [.error fi.path .osError],
        stats := { s.stats with errors := s.stats.errors + 1 } }) := by
  simp [move_file, move_file_try, create_destination_dir, hmk]

/-- `move_file` when the destination is free and `shutil.move` raises. -/
theorem move_file_eq_of_move_fails (o : FSOracle) (cfg : Config) (fi : FileInfo)
    (s : OrgSt)
    (hmk : o.mkdirFails (cfg.destination_base ++ [fi.category]) = false)
    (hex : (mkdirFs s.fs (cfg.destination_base ++ [fi.category])).pathExists
      (moveDestPath cfg fi) = false)
    (hmv : o.moveFails fi.path (moveDestPath cfg fi) = true) :
    move_file o cfg fi s = .ok ((false, none),
      { fs := mkdirFs s.fs (cfg.destination_base ++ [fi.category]),
        log := s.log ++ [.error fi.path .osError],
        stats := { s.stats with errors := s.stats.errors + 1 } }) := by
  simp [move_file, move_file_try, create_destination_dir, move_file_step,
    moveDestPath] at hex hmv ⊢
  simp [hmk, hex, hmv]

/-- `move_file` when the destination is free and the move succeeds. -/
theorem move_file_eq_of_success (o : FSOracle) (cfg : Config) (fi : FileInfo)
    (s : OrgSt)
    (hmk : o.mkdirFails (cfg.destination_base ++ [fi.category]) = false)
    (hex : (mkdirFs s.fs (cfg.destination_base ++ [fi.category])).pathExists
      (moveDestPath cfg fi) = false)
    (hmv : o.moveFails fi.path (moveDestPath cfg fi) = false) :
    move_file o cfg fi s = .ok ((true, some (moveDestPath cfg fi)),
      { fs := { files := moveDestPath cfg fi :: s.fs.files.erase fi.path,
                dirs := (mkdirFs s.fs (cfg.destination_base ++ [fi.category])).dirs },
        log := s.log ++ [.moved fi.path (moveDestPath cfg fi) fi.category],
        stats := { s.stats with moved := s.stats.moved + 1 } }) := by
  simp [move_file, move_file_try, create_destination_dir, move_file_step,
    moveDestPath, mkdirFs] at hex hmv ⊢
  simp [hmk, hex, hmv]

/-- `move_file` when there is a name conflict and the conflict loop hits its
ceiling: the `ValueError` is caught, so ERROR is logged and counted and
failure is returned, with `renamed` untouched. -/
theorem move_file_eq_of_resolve_fails (o : FSOracle) (cfg : Config) (fi : FileInfo)
    (s : OrgSt) (e : PyExn)
    (hmk : o.mkdirFails (cfg.destination_base ++ [fi.category]) = false)
    (hex : (mkdirFs s.fs (cfg.destination_base ++ [fi.category])).pathExists
      (moveDestPath cfg fi) = true)
    (hu : get_unique_filename
      ((mkdirFs s.fs (cfg.destination_base ++ [fi.category])).pathExists)
      (moveDestPath cfg fi) = .error e) :
    move_file o cfg fi s = .ok ((false, none),
      { fs := mkdirFs s.fs (cfg.destination_base ++ [fi.category]),
        log := s.log ++ [.error fi.path e],
        stats := { s.stats with errors := s.stats.errors + 1 } }) := by
  simp [move_file, move_file_try, create_destination_dir, move_file_step,
    moveDestPath, mkdirFs] at hex hu ⊢
  simp [hmk, hex, hu]

/-- `move_file` when a name conflict is resolved to `np` but `shutil.move`
then raises: RENAMED was already logged and `renamed` already incremented, and
the handler adds ERROR and `errors`. -/
theorem move_file_eq_of_conflict_move_fails (o : FSOracle) (cfg : Config)
    (fi : FileInfo) (s : OrgSt) (np : PyPath)
    (hmk : o.mkdirFails (cfg.destination_base ++ [fi.category]) = false)
    (hex : (mkdirFs s.fs (cfg.destination_base ++ [fi.category])).pathExists
      (moveDestPath cfg fi) = true)
    (hu : get_unique_filename
      ((mkdirFs s.fs (cfg.destination_base ++ [fi.category])).pathExists)
      (moveDestPath cfg fi) = .ok np)
    (hmv : o.moveFails fi.path np = true) :
    move_file o cfg fi s = .ok ((false, none),
      { fs := mkdirFs s.fs (cfg.destination_base ++ [fi.category]),
        log := s.log ++ [.renamed (moveDestPath cfg fi) np "name conflict",
                         .error fi.path .osError],
        stats := { s.stats with renamed := s.stats.renamed + 1,
                                errors := s.stats.errors + 1 } }) := by
  simp [move_file, move_file_try, create_destination_dir, move_file_step,
    moveDestPath, mkdirFs] at hex hu hmv ⊢
  simp [hmk, hex, hu, hmv]

/-- `move_file` when a name conflict is resolved to `np` and the move
succeeds: RENAMED then MOVED are logged, `renamed` and `moved` both grow. -/
theorem move_file_eq_of_conflict_success (o : FSOracle) (cfg : Config)
    (fi : FileInfo) (s : OrgSt) (np : PyPath)
    (hmk : o.mkdirFails (cfg.destination_base ++ [fi.category]) = false)
    (hex : (mkdirFs s.fs (cfg.destination_base ++ [fi.category])).pathExists
      (moveDestPath cfg fi) = true)
    (hu : get_unique_filename
      ((mkdirFs s.fs (cfg.destination_base ++ [fi.category])).pathExists)
      (moveDestPath cfg fi) = .ok np)
    (hmv : o.moveFails fi.path np = false) :
    move_file o cfg fi s = .ok ((true, some np),
      { fs := { files := np :: s.fs.files.erase fi.path,
                dirs := (mkdirFs s.fs (cfg.destination_base ++ [fi.category])).dirs },
        log := s.log ++ [.renamed (moveDestPath cfg fi) np "name conflict",
                         .moved fi.path np fi.category],
        stats := { s.stats with renamed := s.stats.renamed + 1,
                                moved := s.stats.moved + 1 } }) := by
  simp [move_file, move_file_try, create_destination_dir, move_file_step,
    moveDestPath, mkdirFs] at hex hu hmv ⊢
  simp [hmk, hex, hu, hmv]

/-- `delete_file` when the path is missing or not a regular file:
`safe_delete_file` reports failure, the raised `FileNotFoundError` is caught,
ERROR is logged, `errors` counted, failure returned, filesystem untouched. -/
theorem delete_file_eq_of_not_file (o : FSOracle) (fi : FileInfo) (s : OrgSt)
    (hex : (s.fs.pathExists fi.path && s.fs.isFile fi.path) = false) :
    delete_file o fi s = .ok (false,
      { s with
        log := s.log ++ [.error fi.path .fileNotFound],
        stats := { s.stats with errors := s.stats.errors + 1 } }) := by
  rw [delete_file, delete_file_try, safe_delete_file, hex]
  rfl

/-- `delete_file` when the path is an existing regular file but `unlink`
raises: `safe_delete_file` swallows the exception and reports failure, so the
organizer logs ERROR, counts it and returns failure. -/
theorem delete_file_eq_of_unlink_fails (o : FSOracle) (fi : FileInfo) (s : OrgSt)
    (hex : (s.fs.pathExists fi.path && s.fs.isFile fi.path) = true)
    (hul : o.unlinkFails fi.path = true) :
    delete_file o fi s = .ok (false,
      { s with
        log := s.log ++ [.error fi.path .fileNotFound],
        stats := { s.stats with errors := s.stats.errors + 1 } }) := by
  simp [delete_file, delete_file_try, safe_delete_file] at hex ⊢
  simp [hex, hul]

/-- `delete_file` when the path is an existing regular file and `unlink`
succeeds: the file is removed, DELETED logged and `deleted` counted. -/
theorem delete_file_eq_of_success (o : FSOracle) (fi : FileInfo) (s : OrgSt)
    (hex : (s.fs.pathExists fi.path && s.fs.isFile fi.path) = true)
    (hul : o.unlinkFails fi.path = false) :
    delete_file o fi s = .ok (true,
      { s with
        fs := { s.fs with files := s.fs.files.erase fi.path },
        log := s.log ++ [.deleted fi.path "user request"],
        stats := { s.stats with deleted := s.stats.deleted + 1 } }) := by
  simp [delete_file, delete_file_try, safe_delete_file] at hex ⊢
  simp [hex, hul]

/-- Full bookkeeping case analysis of one `move_file` call: it always returns
normally; `total`, `deleted` and `skipped` never change; `renamed` grows by at
most one; a successful call adds one to `moved`, a failed call one to
`errors`; and when `shutil.move` itself cannot fail, every `renamed` increment
is matched by a `moved` increment. -/
theorem move_file_cases (o : FSOracle) (cfg : Config) (fi : FileInfo) (s : OrgSt) :
    ∃ ok dst s', move_file o cfg fi s = .ok ((ok, dst), s') ∧
      s'.stats.total = s.stats.total ∧
      s'.stats.deleted = s.stats.deleted ∧
      s'.stats.skipped = s.stats.skipped ∧
      s.stats.renamed ≤ s'.stats.renamed ∧
      s'.stats.renamed ≤ s.stats.renamed + 1 ∧
      (ok = true → s'.stats.moved = s.stats.moved + 1 ∧
        s'.stats.errors = s.stats.errors) ∧
      (ok = false → s'.stats.moved = s.stats.moved ∧
        s'.stats.errors = s.stats.errors + 1) ∧
      ((∀ p q, o.moveFails p q = false) →
        s'.stats.renamed + s.stats.moved ≤ s.stats.renamed + s'.stats.moved) := by
  cases hmk : o.mkdirFails (cfg.destination_base ++ [fi.category]) with
  | true =>
    exact ⟨false, none, _, move_file_eq_of_mkdir_fails o cfg fi s hmk,
      rfl, rfl, rfl, le_rfl, Nat.le_succ _,
      fun h => absurd h (by decide), fun _ => ⟨rfl, rfl⟩, fun _ => le_rfl⟩
  | false =>
    cases hex : (mkdirFs s.fs (cfg.destination_base ++ [fi.category])).pathExists
        (moveDestPath cfg fi) with
    | false =>
      cases hmv : o.moveFails fi.path (moveDestPath cfg fi) with
      | true =>
        exact ⟨false, none, _, move_file_eq_of_move_fails o cfg fi s hmk hex hmv,
          rfl, rfl, rfl, le_rfl, Nat.le_succ _,
          fun h => absurd h (by decide), fun _ => ⟨rfl, rfl⟩, fun _ => le_rfl⟩
      | false =>
        exact ⟨true, some (moveDestPath cfg fi), _,
          move_file_eq_of_success o cfg fi s hmk hex hmv,
          rfl, rfl, rfl, le_rfl, Nat.le_succ _,
          fun _ => ⟨rfl, rfl⟩, fun h => absurd h (by decide),
          fun _ => by dsimp; omega⟩
    | true =>
      cases hu : get_unique_filename
          ((mkdirFs s.fs (cfg.destination_base ++ [fi.category])).pathExists)
          (moveDestPath cfg fi) with
      | error e =>
        exact ⟨false, none, _,
          move_file_eq_of_resolve_fails o cfg fi s e hmk hex hu,
          rfl, rfl, rfl, le_rfl, Nat.le_succ _,
          fun h => absurd h (by decide), fun _ => ⟨rfl, rfl⟩, fun _ => le_rfl⟩
      | ok np =>
        cases hmv : o.moveFails fi.path np with
        | true =>
          refine ⟨false, none, _,
            move_file_eq_of_conflict_move_fails o cfg fi s np hmk hex hu hmv,
            rfl, rfl, rfl, Nat.le_succ _, le_rfl,
            fun h => absurd h (by decide), fun _ => ⟨rfl, rfl⟩, fun hall => ?_⟩
          rw [hall fi.path np] at hmv
          exact absurd hmv (by decide)
        | false =>
          exact ⟨true, some np, _,
            move_file_eq_of_conflict_success o cfg fi s np hmk hex hu hmv,
            rfl, rfl, rfl, Nat.le_succ _, le_rfl,
            fun _ => ⟨rfl, rfl⟩, fun h => absurd h (by decide),
            fun _ => by dsimp; omega⟩

/-- Full bookkeeping case analysis of one `delete_file` call: it always
returns normally; `total`, `moved`, `renamed` and `skipped` never change; a
successful call adds one to `deleted`, a failed call one to `errors`. -/
theorem delete_file_cases (o : FSOracle) (fi : FileInfo) (s : OrgSt) :
    ∃ ok s', delete_file o fi s = .ok (ok, s') ∧
      s'.stats.total = s.stats.total ∧
      s'.stats.moved = s.stats.moved ∧
      s'.stats.renamed = s.stats.renamed ∧
      s'.stats.skipped = s.stats.skipped ∧
      (ok = true → s'.stats.deleted = s.stats.deleted + 1 ∧
        s'.stats.errors = s.stats.errors) ∧
      (ok = false → s'.stats.deleted = s.stats.deleted ∧
        s'.stats.errors = s.stats.errors + 1) := by
  cases hex : s.fs.pathExists fi.path && s.fs.isFile fi.path with
  | false =>
    exact ⟨false, _, delete_file_eq_of_not_file o fi s hex,
      rfl, rfl, rfl, rfl, fun h => absurd h (by decide), fun _ => ⟨rfl, rfl⟩⟩
  | true =>
    cases hul : o.unlinkFails fi.path with
    | true =>
      exact ⟨false, _, delete_file_eq_of_unlink_fails o fi s hex hul,
        rfl, rfl, rfl, rfl, fun h => absurd h (by decide), fun _ => ⟨rfl, rfl⟩⟩
    | false =>
      exact ⟨true, _, delete_file_eq_of_success o fi s hex hul,
        rfl, rfl, rfl, rfl, fun _ => ⟨rfl, rfl⟩, fun h => absurd h (by decide)⟩

/-- One `apply_action` step: `total` is untouched, the four terminal counters
together grow by exactly one, `renamed` and `moved` are monotone, and when
`shutil.move` cannot fail the `renamed` growth is bounded by the `moved`
growth. -/
theorem apply_action_delta (o : FSOracle) (cfg : Config) (a : Action)
    (fi : FileInfo) (s : OrgSt) :
    (apply_action o cfg a fi s).stats.total = s.stats.total ∧
    (apply_action o cfg a fi s).stats.moved + (apply_action o cfg a fi s).stats.deleted +
        (apply_action o cfg a fi s).stats.skipped + (apply_action o cfg a fi s).stats.errors =
      s.stats.moved + s.stats.deleted + s.stats.skipped + s.stats.errors + 1 ∧
    s.stats.renamed ≤ (apply_action o cfg a fi s).stats.renamed ∧
    s.stats.moved ≤ (apply_action o cfg a fi s).stats.moved ∧
    ((∀ p q, o.moveFails p q = false) →
      (apply_action o cfg a fi s).stats.renamed + s.stats.moved ≤
        s.stats.renamed + (apply_action o cfg a fi s).stats.moved) := by
  cases a with
  | amove =>
    obtain ⟨ok, dst, s', heq, htot, hdel, hskip, hren1, hren2, hok, hfail, hmv⟩ :=
      move_file_cases o cfg fi s
    have happ : apply_action o cfg Action.amove fi s = s' := by
      simp [apply_action, heq]
    rw [happ]
    refine ⟨htot, ?_, hren1, ?_, hmv⟩
    · cases ok with
      | true => obtain ⟨h1, h2⟩ := hok rfl; omega
      | false => obtain ⟨h1, h2⟩ := hfail rfl; omega
    · cases ok with
      | true => obtain ⟨h1, _⟩ := hok rfl; omega
      | false => obtain ⟨h1, _⟩ := hfail rfl; omega
  | adelete =>
    obtain ⟨ok, s', heq, htot, hmov, hren, hskip, hok, hfail⟩ :=
      delete_file_cases o fi s
    have happ : apply_action o cfg Action.adelete fi s = s' := by
      simp [apply_action, heq]
    rw [happ]
    refine ⟨htot, ?_, le_of_eq hren.symm, le_of_eq hmov.symm, fun _ => by omega⟩
    cases ok with
    | true => obtain ⟨h1, h2⟩ := hok rfl; omega
    | false => obtain ⟨h1, h2⟩ := hfail rfl; omega
  | askip =>
    refine ⟨rfl, ?_, le_rfl, le_rfl, fun _ => le_rfl⟩
    dsimp [apply_action, skip_file]
    omega

/-- Branch equation: directories are skipped by the scan loop. -/
theorem scan_files_loop_cons_dir (o : FSOracle) (cfg : Config) (item : PyPath)
    (rest : List PyPath) (s : OrgSt) (hd : s.fs.isDir item = true) :
    scan_files_loop o cfg (item :: rest) s = scan_files_loop o cfg rest s := by
  rw [scan_files_loop, if_pos hd]

/-- Branch equation: ignorable files are skipped by the scan loop. -/
theorem scan_files_loop_cons_ignored (o : FSOracle) (cfg : Config) (item : PyPath)
    (rest : List PyPath) (s : OrgSt) (hd : s.fs.isDir item = false)
    (hig : should_ignore_file item = true) :
    scan_files_loop o cfg (item :: rest) s = scan_files_loop o cfg rest s := by
  rw [scan_files_loop, if_neg (by simp [hd]), if_pos hig]

/-- Branch equation: a failing `stat` is caught, logged as ERROR and counted,
and the item is excluded from the result. -/
theorem scan_files_loop_cons_statfail (o : FSOracle) (cfg : Config) (item : PyPath)
    (rest : List PyPath) (s : OrgSt) (hd : s.fs.isDir item = false)
    (hig : should_ignore_file item = false) (hst : o.statFails item = true) :
    scan_files_loop o cfg (item :: rest) s = scan_files_loop o cfg rest
      { s with
        log := s.log ++ [.error item .osError],
        stats := { s.stats with errors := s.stats.errors + 1 } } := by
  rw [scan_files_loop, if_neg (by simp [hd]), if_neg (by simp [hig]), if_pos hst]

/-- Branch equation: a surviving item is classified, sized and kept. -/
theorem scan_files_loop_cons_keep (o : FSOracle) (cfg : Config) (item : PyPath)
    (rest : List PyPath) (s : OrgSt) (hd : s.fs.isDir item = false)
    (hig : should_ignore_file item = false) (hst : o.statFails item = false) :
    scan_files_loop o cfg (item :: rest) s =
      (⟨item, get_file_category cfg.formatTable cfg.defaultCategory item,
          o.statSize item⟩ :: (scan_files_loop o cfg rest s).1,
        (scan_files_loop o cfg rest s).2) := by
  rw [scan_files_loop, if_neg (by simp [hd]), if_neg (by simp [hig]),
    if_neg (by simp [hst])]

/-- When no `stat` call fails, the scan loop leaves the organizer state
completely untouched. -/
theorem scan_files_loop_of_clean (o : FSOracle) (cfg : Config) :
    ∀ (items : List PyPath) (s : OrgSt), (∀ it ∈ items, o.statFails it = false) →
      (scan_files_loop o cfg items s).2 = s := by
  intro items
  induction items with
  | nil => intro s _; rfl
  | cons item rest ih =>
    intro s hclean
    have hitem : o.statFails item = false := hclean item (List.mem_cons_self item rest)
    have hrest : ∀ it ∈ rest, o.statFails it = false :=
      fun it hit => hclean it (List.mem_cons_of_mem item hit)
    cases hd : s.fs.isDir item with
    | true => rw [scan_files_loop_cons_dir o cfg item rest s hd]; exact ih s hrest
    | false =>
      cases hig : should_ignore_file item with
      | true =>
        rw [scan_files_loop_cons_ignored o cfg item rest s hd hig]
        exact ih s hrest
      | false =>
        rw [scan_files_loop_cons_keep o cfg item rest s hd hig hitem]
        exact ih s hrest

/-- The scan loop never touches the filesystem, never changes any counter but
`errors`, adds one error for every non-directory, non-ignored item whose
`stat` fails, and returns only descriptors whose `stat` succeeded, drawn from
the listing. -/
theorem scan_files_loop_spec (o : FSOracle) (cfg : Config) :
    ∀ (items : List PyPath) (s : OrgSt),
      (scan_files_loop o cfg items s).2.fs = s.fs ∧
      (scan_files_loop o cfg items s).2.stats.total = s.stats.total ∧
      (scan_files_loop o cfg items s).2.stats.moved = s.stats.moved ∧
      (scan_files_loop o cfg items s).2.stats.renamed = s.stats.renamed ∧
      (scan_files_loop o cfg items s).2.stats.deleted = s.stats.deleted ∧
      (scan_files_loop o cfg items s).2.stats.skipped = s.stats.skipped ∧
      (scan_files_loop o cfg items s).2.stats.errors = s.stats.errors +
        (items.filter (fun it => !s.fs.isDir it && !should_ignore_file it &&
          o.statFails it)).length ∧
      (∀ fi ∈ (scan_files_loop o cfg items s).1,
        o.statFails fi.path = false ∧ fi.path ∈ items) := by
  intro items
  induction items with
  | nil =>
    intro s
    refine ⟨rfl, rfl, rfl, rfl, rfl, rfl, by simp [scan_files_loop], ?_⟩
    intro fi hfi
    simp [scan_files_loop] at hfi
  | cons item rest ih =>
    intro s
    cases hd : s.fs.isDir item with
    | true =>
      rw [scan_files_loop_cons_dir o cfg item rest s hd]
      obtain ⟨h1, h2, h3, h4, h5, h6, h7, h8⟩ := ih s
      refine ⟨h1, h2, h3, h4, h5, h6, ?_, ?_⟩
      · rw [h7, List.filter_cons_of_neg]
        simp [hd]
      · exact fun fi hfi => ⟨(h8 fi hfi).1, List.mem_cons_of_mem _ (h8 fi hfi).2⟩
    | false =>
      cases hig : should_ignore_file item with
      | true =>
        rw [scan_files_loop_cons_ignored o cfg item rest s hd hig]
        obtain ⟨h1, h2, h3, h4, h5, h6, h7, h8⟩ := ih s
        refine ⟨h1, h2, h3, h4, h5, h6, ?_, ?_⟩
        · rw [h7, List.filter_cons_of_neg]
          simp [hd, hig]
        · exact fun fi hfi => ⟨(h8 fi hfi).1, List.mem_cons_of_mem _ (h8 fi hfi).2⟩
      | false =>
        cases hst : o.statFails item with
        | true =>
          rw [scan_files_loop_cons_statfail o cfg item rest s hd hig hst]
          obtain ⟨h1, h2, h3, h4, h5, h6, h7, h8⟩ := ih
            { s with
              log := s.log ++ [.error item .osError],
              stats := { s.stats with errors := s.stats.errors + 1 } }
          refine ⟨h1, h2, h3, h4, h5, h6, ?_, ?_⟩
          · rw [h7, List.filter_cons_of_pos]
            · simp only [List.length_cons]
              omega
            · simp [hd, hig, hst]
          · exact fun fi hfi => ⟨(h8 fi hfi).1, List.mem_cons_of_mem _ (h8 fi hfi).2⟩
        | false =>
          rw [scan_files_loop_cons_keep o cfg item rest s hd hig hst]
          obtain ⟨h1, h2, h3, h4, h5, h6, h7, h8⟩ := ih s
          refine ⟨h1, h2, h3, h4, h5, h6, ?_, ?_⟩
          · rw [h7, List.filter_cons_of_neg]
            simp [hd, hig, hst]
          · intro fi hfi
            simp only [List.mem_cons] at hfi
            rcases hfi with hfi | hfi
            · subst hfi
              exact ⟨hst, List.mem_cons_self _ _⟩
            · exact ⟨(h8 fi hfi).1, List.mem_cons_of_mem _ (h8 fi hfi).2⟩

/-- The `organize_all` loop always returns normally; it leaves `total`,
`deleted` and `skipped` alone, adds exactly one to `moved + errors` per file,
keeps `renamed` and `moved` monotone, and when `shutil.move` cannot fail its
`renamed` growth is bounded by its `moved` growth. -/
theorem organize_all_loop_ok (o : FSOracle) (cfg : Config) :
    ∀ (files : List FileInfo) (s : OrgSt),
      ∃ s', organize_all_loop o cfg files s = .ok s' ∧
        s'.stats.total = s.stats.total ∧
        s'.stats.deleted = s.stats.deleted ∧
        s'.stats.skipped = s.stats.skipped ∧
        s'.stats.moved + s'.stats.errors =
          s.stats.moved + s.stats.errors + files.length ∧
        s.stats.renamed ≤ s'.stats.renamed ∧
        s.stats.moved ≤ s'.stats.moved ∧
        ((∀ p q, o.moveFails p q = false) →
          s'.stats.renamed + s.stats.moved ≤ s.stats.renamed + s'.stats.moved) := by
  intro files
  induction files with
  | nil =>
    intro s
    exact ⟨s, rfl, rfl, rfl, rfl, by simp, le_rfl, le_rfl, fun _ => le_rfl⟩
  | cons fi rest ih =>
    intro s
    obtain ⟨ok, dst, s1, heq, htot, hdel, hskip, hren1, hren2, hok, hfail, hmv⟩ :=
      move_file_cases o cfg fi s
    obtain ⟨s', heq', htot', hdel', hskip', hsum', hren', hmov', hmv'⟩ := ih s1
    have hloop : organize_all_loop o cfg (fi :: rest) s = .ok s' := by
      rw [organize_all_loop, heq]
      exact heq' 
    have hone : s1.stats.moved + s1.stats.errors =
        s.stats.moved + s.stats.errors + 1 := by
      cases ok with
      | true => obtain ⟨h1, h2⟩ := hok rfl; omega
      | false => obtain ⟨h1, h2⟩ := hfail rfl; omega
    have hmone : s.stats.moved ≤ s1.stats.moved := by
      cases ok with
      | true => obtain ⟨h1, _⟩ := hok rfl; omega
      | false => obtain ⟨h1, _⟩ := hfail rfl; omega
    refine ⟨s', hloop, by rw [htot', htot], by rw [hdel', hdel],
      by rw [hskip', hskip], by rw [hsum']; simp [List.length_cons]; omega,
      le_trans hren1 hren', le_trans hmone hmov', fun hall => ?_⟩
    have ha := hmv hall
    have hb := hmv' hall
    omega

/-- When every move in the pass succeeds, the loop adds exactly the number of
files to `moved` and leaves `errors` and `total` unchanged. -/
theorem organize_all_loop_of_success (o : FSOracle) (cfg : Config) :
    ∀ (files : List FileInfo) (s : OrgSt), movesSucceed o cfg files s = true →
      ∃ s', organize_all_loop o cfg files s = .ok s' ∧
        s'.stats.moved = s.stats.moved + files.length ∧
        s'.stats.errors = s.stats.errors ∧
        s'.stats.total = s.stats.total := by
  intro files
  induction files with
  | nil => intro s _; exact ⟨s, rfl, by simp, rfl, rfl⟩
  | cons fi rest ih =>
    intro s hsucc
    obtain ⟨ok, dst, s1, heq, htot, hdel, hskip, hren1, hren2, hok, hfail, hmv⟩ :=
      move_file_cases o cfg fi s
    have hsucc1 : (ok && movesSucceed o cfg rest s1) = true := by
      rw [movesSucceed, heq] at hsucc
      exact hsucc
    simp only [Bool.and_eq_true] at hsucc1
    obtain ⟨hok1, hrest⟩ := hsucc1
    obtain ⟨hm1, he1⟩ := hok hok1
    obtain ⟨s', heq', hm', he', ht'⟩ := ih s1 hrest
    have hloop2 : organize_all_loop o cfg (fi :: rest) s = .ok s' := by
      rw [organize_all_loop, heq]
      exact heq'
    refine ⟨s', hloop2, ?_, ?_, ?_⟩
    · rw [hm', hm1]
      simp [List.length_cons]
      omega
    · rw [he', he1]
    · rw [ht', htot]

/-- A full driver pass: `total` untouched, the four terminal counters together
grow by the number of descriptors, `renamed` and `moved` are monotone, and
when `shutil.move` cannot fail the `renamed` growth is bounded by the `moved`
growth. -/
theorem run_actions_delta (o : FSOracle) (cfg : Config) (act : FileInfo → Action) :
    ∀ (files : List FileInfo) (s : OrgSt),
      (run_actions o cfg act files s).stats.total = s.stats.total ∧
      (run_actions o cfg act files s).stats.moved +
          (run_actions o cfg act files s).stats.deleted +
          (run_actions o cfg act files s).stats.skipped +
          (run_actions o cfg act files s).stats.errors =
        s.stats.moved + s.stats.deleted + s.stats.skipped + s.stats.errors +
          files.length ∧
      s.stats.renamed ≤ (run_actions o cfg act files s).stats.renamed ∧
      s.stats.moved ≤ (run_actions o cfg act files s).stats.moved ∧
      ((∀ p q, o.moveFails p q = false) →
        (run_actions o cfg act files s).stats.renamed + s.stats.moved ≤
          s.stats.renamed + (run_actions o cfg act files s).stats.moved) := by
  intro files
  induction files with
  | nil => intro s; exact ⟨rfl, by simp [run_actions], le_rfl, le_rfl, fun _ => le_rfl⟩
  | cons fi rest ih =>
    intro s
    obtain ⟨h1, h2, h3, h4, h5⟩ := apply_action_delta o cfg (act fi) fi s
    obtain ⟨g1, g2, g3, g4, g5⟩ := ih (apply_action o cfg (act fi) fi s)
    rw [run_actions]
    refine ⟨by rw [g1, h1], by rw [g2]; simp [List.length_cons]; omega,
      le_trans h3 g3, le_trans h4 g4, fun hall => ?_⟩
    have ha := h5 hall
    have hb := g5 hall
    omega

/-- Any path the conflict loop returns is one of the probed candidates, and
it does not exist. -/
theorem uniqueFrom_ok_shape (ex : PyPath → Bool) (p : PyPath) :
    ∀ fuel c r, uniqueFrom ex p c fuel = .ok r →
      ∃ n, c ≤ n ∧ r = uniqueCandidate p n ∧ ex r = false := by
  intro fuel
  induction fuel with
  | zero =>
    intro c r h
    rw [uniqueFrom_step] at h
    by_cases hc : ex (uniqueCandidate p c) = true
    · rw [if_pos hc] at h
      by_cases hceil : 9999 < c + 1
      · rw [if_pos hceil] at h
        exact Except.noConfusion h
      · rw [if_neg hceil] at h
        exact Except.noConfusion h
    · rw [if_neg hc] at h
      simp only [Except.ok.injEq] at h
      subst h
      exact ⟨c, le_rfl, rfl, by simpa using hc⟩
  | succ f ih =>
    intro c r h
    rw [uniqueFrom_step] at h
    by_cases hc : ex (uniqueCandidate p c) = true
    · rw [if_pos hc] at h
      by_cases hceil : 9999 < c + 1
      · rw [if_pos hceil] at h
        exact Except.noConfusion h
      · rw [if_neg hceil] at h
        obtain ⟨n, hn, hr, hex⟩ := ih (c + 1) r h
        exact ⟨n, by omega, hr, hex⟩
    · rw [if_neg hc] at h
      simp only [Except.ok.injEq] at h
      subst h
      exact ⟨c, le_rfl, rfl, by simpa using hc⟩

/-- When the desired path exists, a successful `get_unique_filename` returns a
candidate `stem_n<suffix>` (for some `n ≥ 1`) that does not exist. -/
theorem get_unique_filename_ok_shape (ex : PyPath → Bool) (p : PyPath)
    (r : PyPath) (hp : ex p = true) (h : get_unique_filename ex p = .ok r) :
    ∃ n, 1 ≤ n ∧ r = uniqueCandidate p n ∧ ex r = false := by
  rw [get_unique_filename, if_pos hp] at h
  exact uniqueFrom_ok_shape ex p 9999 1 r h

/-- Python's stem/suffix split reassembles to the original name. -/
theorem pyStem_append_pySuffix (name : List Char) :
    pyStem name ++ pySuffix name = name := by
  simp only [pyStem, pySuffix, pySplitExt]
  cases h : lastDotIdx name with
  | none => simp
  | some i =>
    dsimp only
    by_cases hc : 0 < i ∧ i < name.length - 1
    · rw [if_pos hc]
      exact List.take_append_drop i name
    · rw [if_neg hc]
      simp

/-- A conflict candidate's name is strictly longer than the original name
(the injected `_` alone guarantees it), so it never equals the original. -/
theorem uniqueCandidate_name_ne (p : PyPath) (n : Nat) :
    (uniqueCandidate p n).name ≠ p.name := by
  intro h
  have hsplit := congrArg List.length (pyStem_append_pySuffix p.name)
  have hlen := congrArg List.length h
  simp only [uniqueCandidate, List.length_append, List.length_cons] at hlen hsplit
  omega

/-- A conflict candidate never equals the conflicting path itself. -/
theorem uniqueCandidate_ne (p : PyPath) (n : Nat) : uniqueCandidate p n ≠ p :=
  fun h => uniqueCandidate_name_ne p n (congrArg PyPath.name h)

/-- C2: for a descriptor whose computed destination already exists (as a
file), a successful `move_file` logs RENAMED and then MOVED in that order,
increments `renamed` (and `moved`) by one, leaves the pre-existing file in
place at the desired path, and puts the moved file at the conflict-resolved
path, which differs from the desired path. -/
theorem move_conflict_renames (o : FSOracle) (cfg : Config) (fi : FileInfo)
    (s : OrgSt) (np : PyPath)
    (hmk : o.mkdirFails (cfg.destination_base ++ [fi.category]) = false)
    (hfile : moveDestPath cfg fi ∈ s.fs.files)
    (hne : fi.path ≠ moveDestPath cfg fi)
    (hu : get_unique_filename
      ((mkdirFs s.fs (cfg.destination_base ++ [fi.category])).pathExists)
      (moveDestPath cfg fi) = .ok np)
    (hmv : o.moveFails fi.path np = false) :
    ∃ s', move_file o cfg fi s = .ok ((true, some np), s') ∧
      s'.log = s.log ++ [.renamed (moveDestPath cfg fi) np "name conflict",
                         .moved fi.path np fi.category] ∧
      s'.stats.renamed = s.stats.renamed + 1 ∧
      s'.stats.moved = s.stats.moved + 1 ∧
      np ≠ moveDestPath cfg fi ∧
      np ∈ s'.fs.files ∧
      moveDestPath cfg fi ∈ s'.fs.files := by
  have hex : (mkdirFs s.fs (cfg.destination_base ++ [fi.category])).pathExists
      (moveDestPath cfg fi) = true := by
    simp [FS.pathExists, FS.isFile, mkdirFs, hfile]
  obtain ⟨n, hn1, hnp, hfree⟩ :=
    get_unique_filename_ok_shape _ _ np hex hu
  refine ⟨_, move_file_eq_of_conflict_success o cfg fi s np hmk hex hu hmv,
    rfl, rfl, rfl, ?_, List.mem_cons_self _ _, ?_⟩
  · rw [hnp]
    exact uniqueCandidate_ne (moveDestPath cfg fi) n
  · exact List.mem_cons_of_mem _
      ((List.mem_erase_of_ne hne.symm).2 hfile)

/-- C2 witness: moving `src/report.pdf` to category `Documents` while
`dst/Documents/report.pdf` already exists produces RENAMED then MOVED, lands
the file at `dst/Documents/report_1.pdf`, keeps the pre-existing file, and
counts one rename. -/
theorem move_conflict_renames_witness :
    let src : PyPath := ⟨["src"], "report.pdf".data⟩
    let pre : PyPath := ⟨["dst", "Documents"], "report.pdf".data⟩
    let np : PyPath := ⟨["dst", "Documents"], "report_1.pdf".data⟩
    let fi : FileInfo := ⟨src, "Documents", 5⟩
    let o : FSOracle :=
      ⟨fun _ => false, fun _ _ => false, fun _ => false, fun _ => 0, fun _ => false⟩
    let cfg : Config := ⟨["src"], ["dst"], [], "Others"⟩
    let s : OrgSt := ⟨⟨[pre, src], [["src"], ["dst"]]⟩, Stats.init, []⟩
    ∃ s', move_file o cfg fi s = .ok ((true, some np), s') ∧
      s'.log = s.log ++ [.renamed (moveDestPath cfg fi) np "name conflict",
                         .moved fi.path np fi.category] ∧
      s'.stats.renamed = s.stats.renamed + 1 ∧
      s'.stats.moved = s.stats.moved + 1 ∧
      np ≠ moveDestPath cfg fi ∧
      np ∈ s'.fs.files ∧
      moveDestPath cfg fi ∈ s'.fs.files := by
  intro src pre np fi o cfg s
  exact move_conflict_renames o cfg fi s np rfl (by decide)
    (by decide) rfl rfl

/-- C4 (amended): fix the final destination `np` of a `move_file` call whose
`mkdir` and (when needed) conflict resolution succeed.  If `shutil.move`
fails, the call logs ERROR last, adds one to `errors`, returns failure, and
leaves `moved`, `deleted`, `skipped` and `total` alone — but `renamed` has
already been incremented exactly when a name conflict was resolved before the
failing move.  If `shutil.move` succeeds, the call adds one to `moved`,
leaves `errors` alone, and adds one to `renamed` exactly when a conflict was
resolved. -/
theorem move_file_counter_discipline (o : FSOracle) (cfg : Config)
    (fi : FileInfo) (s : OrgSt) (np : PyPath)
    (hmk : o.mkdirFails (cfg.destination_base ++ [fi.category]) = false)
    (hres : (mkdirFs s.fs (cfg.destination_base ++ [fi.category])).pathExists
        (moveDestPath cfg fi) = true →
      get_unique_filename
        ((mkdirFs s.fs (cfg.destination_base ++ [fi.category])).pathExists)
        (moveDestPath cfg fi) = .ok np)
    (hnp : (mkdirFs s.fs (cfg.destination_base ++ [fi.category])).pathExists
        (moveDestPath cfg fi) = false → np = moveDestPath cfg fi) :
    (o.moveFails fi.path np = true →
      ∃ s', move_file o cfg fi s = .ok ((false, none), s') ∧
        s'.stats.errors = s.stats.errors + 1 ∧
        s'.stats.moved = s.stats.moved ∧
        s'.stats.deleted = s.stats.deleted ∧
        s'.stats.skipped = s.stats.skipped ∧
        s'.stats.total = s.stats.total ∧
        s'.stats.renamed =
          (if (mkdirFs s.fs (cfg.destination_base ++ [fi.category])).pathExists
              (moveDestPath cfg fi) = true
            then s.stats.renamed + 1 else s.stats.renamed) ∧
        s'.log.getLast? = some (.error fi.path .osError)) ∧
    (o.moveFails fi.path np = false →
      ∃ s', move_file o cfg fi s = .ok ((true, some np), s') ∧
        s'.stats.moved = s.stats.moved + 1 ∧
        s'.stats.errors = s.stats.errors ∧
        s'.stats.deleted = s.stats.deleted ∧
        s'.stats.skipped = s.stats.skipped ∧
        s'.stats.total = s.stats.total ∧
        s'.stats.renamed =
          (if (mkdirFs s.fs (cfg.destination_base ++ [fi.category])).pathExists
              (moveDestPath cfg fi) = true
            then s.stats.renamed + 1 else s.stats.renamed)) := by
  cases hex : (mkdirFs s.fs (cfg.destination_base ++ [fi.category])).pathExists
      (moveDestPath cfg fi) with
  | true =>
    have hu := hres hex
    constructor
    · intro hmv
      refine ⟨_, move_file_eq_of_conflict_move_fails o cfg fi s np hmk hex hu hmv,
        rfl, rfl, rfl, rfl, rfl, by rw [if_pos rfl], ?_⟩
      have hsplit : s.log ++ [LogEvent.renamed (moveDestPath cfg fi) np "name conflict",
          LogEvent.error fi.path PyExn.osError] =
          (s.log ++ [LogEvent.renamed (moveDestPath cfg fi) np "name conflict"]) ++
            [LogEvent.error fi.path PyExn.osError] := by
        rw [List.append_assoc]
        rfl
      show (s.log ++ [LogEvent.renamed (moveDestPath cfg fi) np "name conflict",
          LogEvent.error fi.path PyExn.osError]).getLast? = _
      rw [hsplit, List.getLast?_concat]
    · intro hmv
      exact ⟨_, move_file_eq_of_conflict_success o cfg fi s np hmk hex hu hmv,
        rfl, rfl, rfl, rfl, rfl, by rw [if_pos rfl]⟩
  | false =>
    have hnp' := hnp hex
    subst hnp'
    constructor
    · intro hmv
      refine ⟨_, move_file_eq_of_move_fails o cfg fi s hmk hex hmv,
        rfl, rfl, rfl, rfl, rfl, ?_, ?_⟩
      · rw [if_neg (by simp [hex])]
      · show (s.log ++ [LogEvent.error fi.path PyExn.osError]).getLast? = _
        rw [List.getLast?_concat]
    · intro hmv
      exact ⟨_, move_file_eq_of_success o cfg fi s hmk hex hmv,
        rfl, rfl, rfl, rfl, rfl, by rw [if_neg (by simp [hex])]⟩

/-- C4 witness: a concrete conflicted call whose move fails, and a concrete
free-destination call whose move succeeds, both evaluated through
`move_file_counter_discipline`. -/
theorem move_file_counter_discipline_witness :
    let src : PyPath := ⟨["src"], "report.pdf".data⟩
    let pre : PyPath := ⟨["dst", "Documents"], "report.pdf".data⟩
    let np : PyPath := ⟨["dst", "Documents"], "report_1.pdf".data⟩
    let fi : FileInfo := ⟨src, "Documents", 5⟩
    let o : FSOracle :=
      ⟨fun _ => false, fun _ _ => true, fun _ => false, fun _ => 0, fun _ => false⟩
    let cfg : Config := ⟨["src"], ["dst"], [], "Others"⟩
    let s : OrgSt := ⟨⟨[pre, src], [["src"], ["dst"]]⟩, Stats.init, []⟩
    o.moveFails fi.path np = true ∧
    (o.moveFails fi.path np = true →
      ∃ s', move_file o cfg fi s = .ok ((false, none), s') ∧
        s'.stats.errors = s.stats.errors + 1 ∧
        s'.stats.moved = s.stats.moved ∧
        s'.stats.deleted = s.stats.deleted ∧
        s'.stats.skipped = s.stats.skipped ∧
        s'.stats.total = s.stats.total ∧
        s'.stats.renamed =
          (if (mkdirFs s.fs (cfg.destination_base ++ [fi.category])).pathExists
              (moveDestPath cfg fi) = true
            then s.stats.renamed + 1 else s.stats.renamed) ∧
        s'.log.getLast? = some (.error fi.path .osError)) := by
  intro src pre np fi o cfg s
  exact ⟨rfl,
    (move_file_counter_discipline o cfg fi s np rfl (fun _ => rfl)
      (fun h => absurd h (by decide))).1⟩

/-- C4 counterexample: the claim as stated says a failed filesystem move
increments no counter other than `errors`; but a conflicted call whose
`shutil.move` fails has already incremented `renamed` (from 0 to 1) before
the failure. -/
theorem move_file_counter_discipline_cex :
    moveCallStats (move_file
      ⟨fun _ => false, fun _ _ => true, fun _ => false, fun _ => 0, fun _ => false⟩
      ⟨["src"], ["dst"], [], "Others"⟩
      ⟨⟨["src"], "report.pdf".data⟩, "Documents", 5⟩
      ⟨⟨[⟨["dst", "Documents"], "report.pdf".data⟩, ⟨["src"], "report.pdf".data⟩],
        [["src"], ["dst"]]⟩, Stats.init, []⟩) =
      some (false, ⟨0, 0, 1, 0, 0, 1⟩) ∧ (1 : Nat) ≠ 0 := by
  exact ⟨rfl, by decide⟩

/-- `organize_all` unfolded past the always-normal scan. -/
theorem organize_all_eq (o : FSOracle) (cfg : Config) (items : List PyPath)
    (s : OrgSt) :
    organize_all o cfg items s =
      match organize_all_loop o cfg (scan_files_loop o cfg items s).1
          { (scan_files_loop o cfg items s).2 with
            stats := { (scan_files_loop o cfg items s).2.stats with
                       total := (scan_files_loop o cfg items s).1.length } } with
      | .error e => .error e
      | .ok s2 => .ok (s2.stats, { s2 with log := s2.log ++ [.summary s2.stats] }) :=
  rfl

/-- `run_organizer` unfolded past the always-normal scan. -/
theorem run_organizer_eq (o : FSOracle) (cfg : Config) (act : FileInfo → Action)
    (items : List PyPath) (s : OrgSt) :
    run_organizer o cfg act items s =
      run_actions o cfg act (scan_files_loop o cfg items s).1
        { (scan_files_loop o cfg items s).2 with
          stats := { (scan_files_loop o cfg items s).2.stats with
                     total := (scan_files_loop o cfg items s).1.length } } :=
  rfl

/-- A driver pass started from freshly zeroed counters with `total` set to the
number of descriptors satisfies the counter invariant, provided `shutil.move`
cannot fail. -/
theorem run_actions_fresh (o : FSOracle) (cfg : Config) (act : FileInfo → Action)
    (files : List FileInfo) (fs0 : FS) (log0 : List LogEvent)
    (hmv : ∀ p q, o.moveFails p q = false) :
    (run_actions o cfg act files ⟨fs0, ⟨files.length, 0, 0, 0, 0, 0⟩, log0⟩).stats.total =
        (run_actions o cfg act files ⟨fs0, ⟨files.length, 0, 0, 0, 0, 0⟩, log0⟩).stats.moved +
        (run_actions o cfg act files ⟨fs0, ⟨files.length, 0, 0, 0, 0, 0⟩, log0⟩).stats.deleted +
        (run_actions o cfg act files ⟨fs0, ⟨files.length, 0, 0, 0, 0, 0⟩, log0⟩).stats.skipped +
        (run_actions o cfg act files ⟨fs0, ⟨files.length, 0, 0, 0, 0, 0⟩, log0⟩).stats.errors ∧
      (run_actions o cfg act files ⟨fs0, ⟨files.length, 0, 0, 0, 0, 0⟩, log0⟩).stats.renamed ≤
        (run_actions o cfg act files ⟨fs0, ⟨files.length, 0, 0, 0, 0, 0⟩, log0⟩).stats.moved := by
  obtain ⟨h1, h2, h3, h4, h5⟩ :=
    run_actions_delta o cfg act files ⟨fs0, ⟨files.length, 0, 0, 0, 0, 0⟩, log0⟩
  have h6 := h5 hmv
  dsimp at h1 h2 h3 h4 h6
  constructor
  · omega
  · omega

/-- `organize_all` from a fresh organizer, when scanning reports no errors and
`shutil.move` cannot fail, returns counters satisfying the invariant. -/
theorem organize_all_fresh (o : FSOracle) (cfg : Config) (items : List PyPath)
    (fs0 : FS) (log0 : List LogEvent)
    (hscan : ∀ it ∈ items, o.statFails it = false)
    (hmv : ∀ p q, o.moveFails p q = false) :
    ∃ st s', organize_all o cfg items ⟨fs0, Stats.init, log0⟩ = .ok (st, s') ∧
      st.total = st.moved + st.deleted + st.skipped + st.errors ∧
      st.renamed ≤ st.moved := by
  have hclean := scan_files_loop_of_clean o cfg items ⟨fs0, Stats.init, log0⟩ hscan
  obtain ⟨s', hloop, htot, hdel, hskip, hsum, hren1, hmov1, hmono⟩ :=
    organize_all_loop_ok o cfg (scan_files_loop o cfg items ⟨fs0, Stats.init, log0⟩).1
      { (scan_files_loop o cfg items ⟨fs0, Stats.init, log0⟩).2 with
        stats := { (scan_files_loop o cfg items ⟨fs0, Stats.init, log0⟩).2.stats with
                   total := (scan_files_loop o cfg items ⟨fs0, Stats.init, log0⟩).1.length } }
  have hmono' := hmono hmv
  rw [hclean] at htot hdel hskip hsum hmono'
  simp only [Stats.init] at htot hdel hskip hsum hmono'
  dsimp at htot hdel hskip hsum hmono'
  refine ⟨s'.stats, { s' with log := s'.log ++ [.summary s'.stats] }, ?_, ?_, ?_⟩
  · rw [organize_all_eq, hloop]
  · omega
  · omega

/-- C1 (amended): in a run of the organizer in which the scan reports no
per-file errors and the filesystem move operation does not fail — whether an
interactive-style run giving each scanned descriptor exactly one terminal
action, or `organize_all` — the final counters satisfy
`total = moved + deleted + skipped + errors`, and `renamed` is a sub-count of
`moved` (`renamed ≤ moved`). -/
theorem counters_invariant (o : FSOracle) (cfg : Config) (act : FileInfo → Action)
    (items : List PyPath) (fs0 : FS) (log0 : List LogEvent)
    (hscan : ∀ it ∈ items, o.statFails it = false)
    (hmv : ∀ p q, o.moveFails p q = false) :
    ((run_organizer o cfg act items ⟨fs0, Stats.init, log0⟩).stats.total =
        (run_organizer o cfg act items ⟨fs0, Stats.init, log0⟩).stats.moved +
        (run_organizer o cfg act items ⟨fs0, Stats.init, log0⟩).stats.deleted +
        (run_organizer o cfg act items ⟨fs0, Stats.init, log0⟩).stats.skipped +
        (run_organizer o cfg act items ⟨fs0, Stats.init, log0⟩).stats.errors ∧
      (run_organizer o cfg act items ⟨fs0, Stats.init, log0⟩).stats.renamed ≤
        (run_organizer o cfg act items ⟨fs0, Stats.init, log0⟩).stats.moved) ∧
    (∃ st s', organize_all o cfg items ⟨fs0, Stats.init, log0⟩ = .ok (st, s') ∧
      st.total = st.moved + st.deleted + st.skipped + st.errors ∧
      st.renamed ≤ st.moved) := by
  constructor
  · have h := run_actions_fresh o cfg act
      (scan_files_loop o cfg items ⟨fs0, Stats.init, log0⟩).1 fs0 log0 hmv
    rw [run_organizer_eq, scan_files_loop_of_clean o cfg items _ hscan]
    exact h
  · exact organize_all_fresh o cfg items fs0 log0 hscan hmv

/-- C1 witness: a concrete clean run (one ordinary file, no failure
injected) through `counters_invariant`. -/
theorem counters_invariant_witness :
    let g : PyPath := ⟨["src"], "b.pdf".data⟩
    let o : FSOracle :=
      ⟨fun _ => false, fun _ _ => false, fun _ => false, fun _ => 7, fun _ => false⟩
    let cfg : Config := ⟨["src"], ["dst"], [], "Others"⟩
    let s0 : OrgSt := ⟨⟨[g], [["src"], ["dst"]]⟩, Stats.init, []⟩
    ((run_organizer o cfg (fun _ => Action.amove) [g] s0).stats.total =
        (run_organizer o cfg (fun _ => Action.amove) [g] s0).stats.moved +
        (run_organizer o cfg (fun _ => Action.amove) [g] s0).stats.deleted +
        (run_organizer o cfg (fun _ => Action.amove) [g] s0).stats.skipped +
        (run_organizer o cfg (fun _ => Action.amove) [g] s0).stats.errors ∧
      (run_organizer o cfg (fun _ => Action.amove) [g] s0).stats.renamed ≤
        (run_organizer o cfg (fun _ => Action.amove) [g] s0).stats.moved) ∧
    (∃ st s', organize_all o cfg [g] s0 = .ok (st, s') ∧
      st.total = st.moved + st.deleted + st.skipped + st.errors ∧
      st.renamed ≤ st.moved) := by
  intro g o cfg s0
  exact counters_invariant o cfg (fun _ => Action.amove) [g] s0.fs []
    (fun _ _ => rfl) (fun _ _ => rfl)

/-- C1 counterexample: with one file whose `stat` fails during scanning and a
second file whose conflicted move fails at the filesystem step, `organize_all`
on a fresh organizer ends with `total = 1`, `moved = 0`, `renamed = 1`,
`deleted = skipped = 0` and `errors = 2`: the sum invariant
`total = moved + deleted + skipped + errors` fails (1 ≠ 2) and
`renamed ≤ moved` fails (1 > 0). -/
theorem counters_invariant_cex :
    organizeStats (organize_all
      ⟨fun _ => false, fun p _ => p = PyPath.mk ["src"] "b.pdf".data,
        fun p => p = PyPath.mk ["src"] "a.pdf".data, fun _ => 0, fun _ => false⟩
      ⟨["src"], ["dst"], [], "Others"⟩
      [⟨["src"], "a.pdf".data⟩, ⟨["src"], "b.pdf".data⟩]
      ⟨⟨[⟨["src"], "a.pdf".data⟩, ⟨["src"], "b.pdf".data⟩,
          ⟨["dst", "Others"], "b.pdf".data⟩],
        [["src"], ["dst"]]⟩, Stats.init, []⟩) =
      some ⟨1, 0, 1, 0, 0, 2⟩ ∧
    ¬ ((1 : Nat) = 0 + 0 + 0 + 2) ∧ ¬ ((1 : Nat) ≤ 0) := by
  exact ⟨rfl, by decide, by decide⟩

/-- C5 (amended): `organize_all` moves every scanned descriptor in scan
order; when the scan reports no errors and every move call succeeds, the
final counters are `moved = N`, `errors = 0` and `total = N` for `N` the
number of scanned descriptors. -/
theorem run_automatic_success (o : FSOracle) (cfg : Config) (items : List PyPath)
    (fs0 : FS) (log0 : List LogEvent)
    (hscan : ∀ it ∈ items, o.statFails it = false)
    (hsucc : movesSucceed o cfg
      (scan_files_loop o cfg items ⟨fs0, Stats.init, log0⟩).1
      { (scan_files_loop o cfg items ⟨fs0, Stats.init, log0⟩).2 with
        stats := { (scan_files_loop o cfg items ⟨fs0, Stats.init, log0⟩).2.stats with
                   total := (scan_files_loop o cfg items ⟨fs0, Stats.init, log0⟩).1.length } }
      = true) :
    ∃ st s', organize_all o cfg items ⟨fs0, Stats.init, log0⟩ = .ok (st, s') ∧
      st.moved = (scan_files_loop o cfg items ⟨fs0, Stats.init, log0⟩).1.length ∧
      st.errors = 0 ∧
      st.total = (scan_files_loop o cfg items ⟨fs0, Stats.init, log0⟩).1.length := by
  have hclean := scan_files_loop_of_clean o cfg items ⟨fs0, Stats.init, log0⟩ hscan
  obtain ⟨s', hloop, hm, he, ht⟩ := organize_all_loop_of_success o cfg _ _ hsucc
  rw [hclean] at hm he ht
  have hm' : s'.stats.moved =
      0 + (scan_files_loop o cfg items ⟨fs0, Stats.init, log0⟩).1.length := hm
  have he' : s'.stats.errors = 0 := he
  have ht' : s'.stats.total =
      (scan_files_loop o cfg items ⟨fs0, Stats.init, log0⟩).1.length := ht
  refine ⟨s'.stats, { s' with log := s'.log ++ [.summary s'.stats] }, ?_, ?_, ?_, ?_⟩
  · rw [organize_all_eq, hloop]
  · omega
  · omega
  · omega

/-- C5 witness: a concrete clean automatic run over one descriptor through
`run_automatic_success`. -/
theorem run_automatic_success_witness :
    let g : PyPath := ⟨["src"], "b.pdf".data⟩
    let o : FSOracle :=
      ⟨fun _ => false, fun _ _ => false, fun _ => false, fun _ => 7, fun _ => false⟩
    let cfg : Config := ⟨["src"], ["dst"], [], "Others"⟩
    let s0 : OrgSt := ⟨⟨[g], [["src"], ["dst"]]⟩, Stats.init, []⟩
    ∃ st s', organize_all o cfg [g] s0 = .ok (st, s') ∧
      st.moved = (scan_files_loop o cfg [g] s0).1.length ∧
      st.errors = 0 ∧
      st.total = (scan_files_loop o cfg [g] s0).1.length := by
  intro g o cfg s0
  exact run_automatic_success o cfg [g] s0.fs [] (fun _ _ => rfl) rfl

/-- C5 counterexample: one file's `stat` fails during scanning, the other
file's move succeeds.  No move fails (the move oracle is constantly
successful), yet the final counters are `total = 1`, `moved = 1`,
`errors = 1`: the claimed `errors = 0` is false. -/
theorem run_automatic_success_cex :
    organizeStats (organize_all
      ⟨fun _ => false, fun _ _ => false,
        fun p => p = PyPath.mk ["src"] "a.pdf".data, fun _ => 0, fun _ => false⟩
      ⟨["src"], ["dst"], [], "Others"⟩
      [⟨["src"], "a.pdf".data⟩, ⟨["src"], "b.pdf".data⟩]
      ⟨⟨[⟨["src"], "a.pdf".data⟩, ⟨["src"], "b.pdf".data⟩],
        [["src"], ["dst"]]⟩, Stats.init, []⟩) =
      some ⟨1, 1, 0, 0, 0, 1⟩ ∧
    (∀ p q, FSOracle.moveFails
      ⟨fun _ => false, fun _ _ => false,
        fun p => p = PyPath.mk ["src"] "a.pdf".data, fun _ => 0, fun _ => false⟩
      p q = false) ∧
    ¬ ((1 : Nat) = 0) := by
  exact ⟨rfl, fun _ _ => rfl, by decide⟩

/-- C7: for a path that is missing or not a regular file, `delete_file` logs
ERROR, increments `errors` (and not `deleted`), returns failure and leaves
the filesystem untouched; for an existing regular file whose removal
succeeds, it removes the file, logs DELETED and increments `deleted`. -/
theorem delete_file_correct (o : FSOracle) (fi : FileInfo) (s : OrgSt) :
    (s.fs.pathExists fi.path = false ∨ s.fs.isFile fi.path = false →
      delete_file o fi s = .ok (false,
        { s with
          log := s.log ++ [.error fi.path .fileNotFound],
          stats := { s.stats with errors := s.stats.errors + 1 } })) ∧
    (s.fs.pathExists fi.path = true → s.fs.isFile fi.path = true →
      o.unlinkFails fi.path = false →
      delete_file o fi s = .ok (true,
        { s with
          fs := { s.fs with files := s.fs.files.erase fi.path },
          log := s.log ++ [.deleted fi.path "user request"],
          stats := { s.stats with deleted := s.stats.deleted + 1 } })) := by
  constructor
  · intro h
    refine delete_file_eq_of_not_file o fi s ?_
    rcases h with h | h <;> simp [h]
  · intro h1 h2 h3
    exact delete_file_eq_of_success o fi s (by simp [h1, h2]) h3

/-- C7 witness: deleting a missing file fails and counts an error; deleting
an existing regular file succeeds and counts a deletion. -/
theorem delete_file_correct_witness :
    let f : PyPath := ⟨["src"], "a.pdf".data⟩
    let fi : FileInfo := ⟨f, "Others", 3⟩
    let o : FSOracle :=
      ⟨fun _ => false, fun _ _ => false, fun _ => false, fun _ => 0, fun _ => false⟩
    let sMissing : OrgSt := ⟨⟨[], [["src"]]⟩, Stats.init, []⟩
    let sThere : OrgSt := ⟨⟨[f], [["src"]]⟩, Stats.init, []⟩
    delete_file o fi sMissing = .ok (false,
      { sMissing with
        log := sMissing.log ++ [.error fi.path .fileNotFound],
        stats := { sMissing.stats with errors := sMissing.stats.errors + 1 } }) ∧
    delete_file o fi sThere = .ok (true,
      { sThere with
        fs := { sThere.fs with files := sThere.fs.files.erase fi.path },
        log := sThere.log ++ [.deleted fi.path "user request"],
        stats := { sThere.stats with deleted := sThere.stats.deleted + 1 } }) := by
  intro f fi o sMissing sThere
  exact ⟨(delete_file_correct o fi sMissing).1 (Or.inl (by decide)),
    (delete_file_correct o fi sThere).2 (by decide) (by decide) rfl⟩

/-- C9: no exception escapes a per-file operation.  The scan always returns
normally, counts one error per non-directory, non-ignored item whose `stat`
fails, and excludes every such item from the returned list; `move_file` and
`delete_file` always return normally (their catch-all handlers turn any raise
into a counted failure); and consequently `organize_all`'s loop runs to
completion on every input. -/
theorem operations_never_raise (o : FSOracle) (cfg : Config) (items : List PyPath)
    (fi : FileInfo) (s : OrgSt) :
    (∃ r, scan_files o cfg items s = .ok r) ∧
    (∀ fi' ∈ (scan_files_loop o cfg items s).1, o.statFails fi'.path = false) ∧
    ((scan_files_loop o cfg items s).2.stats.errors = s.stats.errors +
      (items.filter (fun it => !s.fs.isDir it && !should_ignore_file it &&
        o.statFails it)).length) ∧
    (∃ r, move_file o cfg fi s = .ok r) ∧
    (∃ r, delete_file o fi s = .ok r) ∧
    (∃ r, organize_all o cfg items s = .ok r) := by
  obtain ⟨h1, h2, h3, h4, h5, h6, h7, h8⟩ := scan_files_loop_spec o cfg items s
  refine ⟨⟨_, rfl⟩, fun fi' h => (h8 fi' h).1, h7, ?_, ?_, ?_⟩
  · obtain ⟨ok, dst, s', heq, _⟩ := move_file_cases o cfg fi s
    exact ⟨_, heq⟩
  · obtain ⟨ok, s', heq, _⟩ := delete_file_cases o fi s
    exact ⟨_, heq⟩
  · obtain ⟨s', hloop, _⟩ := organize_all_loop_ok o cfg
      (scan_files_loop o cfg items s).1
      { (scan_files_loop o cfg items s).2 with
        stats := { (scan_files_loop o cfg items s).2.stats with
                   total := (scan_files_loop o cfg items s).1.length } }
    refine ⟨(s'.stats, { s' with log := s'.log ++ [.summary s'.stats] }), ?_⟩
    rw [organize_all_eq, hloop]

/-- C9 witness: a concrete scan over a hidden file, a file whose `stat`
fails, and an ordinary file: everything returns normally, the failing file is
excluded and counted, and the per-file operations return normally. -/
theorem operations_never_raise_witness :
    let bad : PyPath := ⟨["src"], "a.pdf".data⟩
    let hidden : PyPath := ⟨["src"], ".hidden".data⟩
    let good : PyPath := ⟨["src"], "b.pdf".data⟩
    let o : FSOracle :=
      ⟨fun _ => false, fun _ _ => false, fun p => p = bad, fun _ => 0, fun _ => false⟩
    let cfg : Config := ⟨["src"], ["dst"], [], "Others"⟩
    let s : OrgSt := ⟨⟨[bad, hidden, good], [["src"], ["dst"]]⟩, Stats.init, []⟩
    let fi : FileInfo := ⟨good, "Others", 0⟩
    (∃ r, scan_files o cfg [hidden, bad, good] s = .ok r) ∧
    (∀ fi' ∈ (scan_files_loop o cfg [hidden, bad, good] s).1,
      o.statFails fi'.path = false) ∧
    ((scan_files_loop o cfg [hidden, bad, good] s).2.stats.errors =
      s.stats.errors + ([hidden, bad, good].filter
        (fun it => !s.fs.isDir it && !should_ignore_file it &&
          o.statFails it)).length) ∧
    (∃ r, move_file o cfg fi s = .ok r) ∧
    (∃ r, delete_file o fi s = .ok r) ∧
    (∃ r, organize_all o cfg [hidden, bad, good] s = .ok r) := by
  intro bad hidden good o cfg s fi
  exact operations_never_raise o cfg [hidden, bad, good] fi s

/-- `getD` on an append, below the break. -/
theorem getD_append_lt (l l' : List Stats) :
    ∀ i, i < l.length → (l ++ l').getD i Stats.init = l.getD i Stats.init := by
  induction l with
  | nil => intro i h; simp at h
  | cons x xs ih =>
    intro i h
    cases i with
    | zero => rfl
    | succ j =>
      show (xs ++ l').getD j Stats.init = xs.getD j Stats.init
      exact ih j (by simpa using h)

/-- `getD` of the freshly appended cell. -/
theorem getD_append_len (l : List Stats) (x : Stats) :
    (l ++ [x]).getD l.length Stats.init = x := by
  induction l with
  | nil => rfl
  | cons y ys ih =>
    show (ys ++ [x]).getD ys.length Stats.init = x
    exact ih

/-- Overwriting the freshly appended cell. -/
theorem set_append_len (l : List Stats) (x y : Stats) :
    (l ++ [x]).set l.length y = l ++ [y] := by
  induction l with
  | nil => rfl
  | cons z zs ih =>
    show z :: (zs ++ [x]).set zs.length y = z :: (zs ++ [y])
    rw [ih]

/-- C10: `get_stats` does not modify the organizer's counters; it returns a
fresh reference whose contents equal the current counters; mutating the
returned dict afterwards leaves the organizer's counters unchanged, and a
subsequent `get_stats` still returns the original counter values. -/
theorem get_stats_copy (h : StatsHeap) (org : Nat) (st : Stats)
    (horg : org < h.cells.length) :
    (get_stats h org).2.read org = h.read org ∧
    (get_stats h org).2.read (get_stats h org).1 = h.read org ∧
    (get_stats h org).1 ≠ org ∧
    ((get_stats h org).2.write (get_stats h org).1 st).read org = h.read org ∧
    (get_stats ((get_stats h org).2.write (get_stats h org).1 st) org).2.read
        (get_stats ((get_stats h org).2.write (get_stats h org).1 st) org).1 =
      h.read org := by
  have hw : (get_stats h org).2.write (get_stats h org).1 st =
      ⟨h.cells ++ [st]⟩ := by
    simp only [get_stats, StatsHeap.write]
    rw [set_append_len]
  refine ⟨?_, ?_, ?_, ?_, ?_⟩
  · exact getD_append_lt h.cells [h.read org] org horg
  · exact getD_append_len h.cells (h.read org)
  · simp only [get_stats]
    omega
  · rw [hw]
    exact getD_append_lt h.cells [st] org horg
  · rw [hw]
    show ((h.cells ++ [st]) ++ [(h.cells ++ [st]).getD org Stats.init]).getD
        (h.cells ++ [st]).length Stats.init = h.read org
    rw [getD_append_len]
    exact getD_append_lt h.cells [st] org horg

/-- C10 witness: a one-cell heap, mutating the copy to all-nines leaves the
organizer's cell (and what a second `get_stats` returns) at the original
values. -/
theorem get_stats_copy_witness :
    let h : StatsHeap := ⟨[⟨3, 1, 0, 1, 1, 0⟩]⟩
    let st : Stats := ⟨9, 9, 9, 9, 9, 9⟩
    (get_stats h 0).2.read 0 = h.read 0 ∧
    (get_stats h 0).2.read (get_stats h 0).1 = h.read 0 ∧
    (get_stats h 0).1 ≠ 0 ∧
    ((get_stats h 0).2.write (get_stats h 0).1 st).read 0 = h.read 0 ∧
    (get_stats ((get_stats h 0).2.write (get_stats h 0).1 st) 0).2.read
        (get_stats ((get_stats h 0).2.write (get_stats h 0).1 st) 0).1 =
      h.read 0 := by
  intro h st
  exact get_stats_copy h 0 st (by decide)

end FolderOrganizer
